import Mathlib

/-!
Verification development for the fully-typed runtime schema engine.

The JavaScript source is shallowly embedded: JS values are a small inductive
universe (primitives plus one level of arrays/objects over primitives, which
covers every value the verified claims mention), fallible code returns
Except, thrown runtime failures are an explicit error type, and the sha256
digest is modelled as an injective tagging function (hash collisions of the
real digest are abstracted away, as the engine itself assumes).
-/

namespace FullyTyped

/-- Primitive JS values. Functions carry an identity token (the JS object
reference) and their source text (what Function.prototype.toString returns). -/
inductive JsPrim where
  | undef
  | null
  | bool (b : Bool)
  | num (n : Int)
  | str (s : String)
  | fn (ref : Nat) (src : String)
  deriving DecidableEq, Repr

/-- JS values: primitives, arrays of primitives and plain objects with
primitive-valued fields. Arrays and objects carry an identity token (`ref`)
standing for the JS object reference; field lists are in property insertion
order, as JS objects enumerate them. -/
inductive JsValue where
  | prim (p : JsPrim)
  | arr (ref : Nat) (elems : List JsPrim)
  | obj (ref : Nat) (fields : List (String × JsPrim))
  deriving DecidableEq, Repr

def jsUndefined : JsValue := .prim .undef

def jsNull : JsValue := .prim .null

def jsBool (b : Bool) : JsValue := .prim (.bool b)

def jsNum (n : Int) : JsValue := .prim (.num n)

def jsStr (s : String) : JsValue := .prim (.str s)

/-- The JS typeof operator. -/
def typeofJs : JsValue → String
  | .prim .undef => "undefined"
  | .prim .null => "object"
  | .prim (.bool _) => "boolean"
  | .prim (.num _) => "number"
  | .prim (.str _) => "string"
  | .prim (.fn _ _) => "function"
  | .arr _ _ => "object"
  | .obj _ _ => "object"

/-- JS truthiness of a value. -/
def jsTruthy : JsValue → Bool
  | .prim .undef => false
  | .prim .null => false
  | .prim (.bool b) => b
  | .prim (.num n) => n != 0
  | .prim (.str s) => s != ""
  | .prim (.fn _ _) => true
  | .arr _ _ => true
  | .obj _ _ => true

/-- String conversion applied by Array.prototype.join to one element:
undefined and null become the empty string, other primitives their usual
string form. -/
def joinElemToString : JsPrim → String
  | .undef => ""
  | .null => ""
  | .bool b => if b then "true" else "false"
  | .num n => toString n
  | .str s => s
  | .fn _ src => src

/-- JSON.stringify of one primitive appearing as an array element:
undefined and functions serialize as null there. -/
def jsonOfArrayElem : JsPrim → String
  | .undef => "null"
  | .null => "null"
  | .bool b => if b then "true" else "false"
  | .num n => toString n
  | .str s => "\"" ++ s ++ "\""
  | .fn _ _ => "null"

/-- JSON.stringify of one object field; undefined-valued and function-valued
fields are omitted entirely. -/
def jsonOfField : String × JsPrim → List String
  | (_, .undef) => []
  | (_, .fn _ _) => []
  | (k, .null) => ["\"" ++ k ++ "\":null"]
  | (k, .bool b) => ["\"" ++ k ++ "\":" ++ (if b then "true" else "false")]
  | (k, .num n) => ["\"" ++ k ++ "\":" ++ toString n]
  | (k, .str s) => ["\"" ++ k ++ "\":\"" ++ s ++ "\""]

/-- JSON.stringify restricted to the embedded value universe. -/
def jsonStringify : JsValue → String
  | .prim .undef => ""
  | .prim .null => "null"
  | .prim (.bool b) => if b then "true" else "false"
  | .prim (.num n) => toString n
  | .prim (.str s) => "\"" ++ s ++ "\""
  | .prim (.fn _ _) => ""
  | .arr _ es => "[" ++ String.intercalate "," (es.map jsonOfArrayElem) ++ "]"
  | .obj _ fs => "\x7b" ++ String.intercalate "," (fs.flatMap jsonOfField) ++ "\x7d"

/-- Serialization of one instance attribute inside the hash computation of
controllers.js (src/unnamed/part_000 lines 95-103): functions by their source
text, object-typed values (null included) by JSON.stringify, and the remaining
scalars by the string conversion that the final join applies. -/
def serializeAttr (v : JsValue) : String :=
  match v with
  | .prim (.fn _ src) => src
  | .prim .null => jsonStringify (.prim .null)
  | .arr r es => jsonStringify (.arr r es)
  | .obj r fs => jsonStringify (.obj r fs)
  | .prim p => joinElemToString p

/-- Model of the sha256 hex digest: an injective tag over the input string.
Collisions of the real digest are abstracted away; two digests are equal
exactly when their pre-images are equal, which is the identification the
engine relies on for deduplication. -/
def sha256hex (s : String) : String :=
  "sha256:" ++ s

theorem sha256hex_injective : Function.Injective sha256hex := by
  intro a b h
  have h2 : ("sha256:" ++ a).data = ("sha256:" ++ b).data := by
    simp [sha256hex] at h
    exact congrArg String.data h
  simp [String.data_append] at h2
  exact String.ext h2

/-- Error data object, as produced by util.errish and enriched by the
aggregating error producers: a message, the taxonomy code, the ordered
sub-error list (empty for leaf errors) and optional location metadata.
The constant per-taxon explanation and summary strings are determined by the
code and therefore not repeated here. -/
inductive ErrObj where
  | mk (message : String) (code : String) (errors : List ErrObj)
      (property : Option String) (index : Option Nat)

def ErrObj.message : ErrObj → String
  | .mk m _ _ _ _ => m

def ErrObj.code : ErrObj → String
  | .mk _ c _ _ _ => c

def ErrObj.errors : ErrObj → List ErrObj
  | .mk _ _ es _ _ => es

def ErrObj.property : ErrObj → Option String
  | .mk _ _ _ p _ => p

/-- Runtime failure: either an error object deliberately thrown by validate or
normalize, or a genuine JS TypeError escaping from the engine itself. -/
inductive RtErr where
  | thrown (e : ErrObj)
  | typeError (msg : String)

/-- Modelled from the spec: util.js is not under src; its shared error
taxonomy entries (util.errors.config, util.errors.type, util.errors.multi)
carry short distinguishing codes, modelled here as distinct placeholder
strings. -/
def utilConfigCode : String := "ECONF"

/-- Modelled from the spec: the util.errors.type code for a fundamental
type-mismatch value error. -/
def utilTypeCode : String := "ETYPE"

/-- Modelled from the spec: the util.errors.multi code for the multi-variant
aggregate "no variant matched" value error. -/
def utilMultiCode : String := "EMULT"

/-- Modelled from the spec: util.valueErrorMessage builds the human-readable
message for a rejected value with a caller-supplied expectation. -/
def valueErrorMessage (v : JsValue) (expects : String) : String :=
  "Invalid value. " ++ expects ++ " Received: " ++ jsonStringify v

/-- Modelled from the spec: util.errish turns a message and a taxonomy entry
into an error data object (never thrown by error itself). -/
def errish (message : String) (code : String) : ErrObj :=
  .mk message code [] none none

/-- Configuration error thrown synchronously at schema-build time. -/
structure ConfigErr where
  message : String

/-- Error codes declared by the controllers under src. -/
def typedEnumCode : String := "ETENM"

def typedValidateCode : String := "ETVLD"

def objectNullCode : String := "EONUL"

def objectPropertiesCode : String := "EOPRP"

def objectRequiredCode : String := "EOREQ"

def arrayItemsCode : String := "EAITM"

def arrayMaxCode : String := "EAMAX"

def arrayMinCode : String := "EAMIN"

def arrayUniqueCode : String := "EAUNQ"

def stringMaxCode : String := "ESMAX"

def stringMinCode : String := "ESMIN"

def stringPatternCode : String := "ESPAT"

/-!
## Typed controller (src/bin/one-of.js second document, the base typed.js)

The configuration is modelled as a record of the recognized options; an
Option field is present exactly when the raw configuration object has that
own property. Function-valued options carry both their source text (used by
hashing) and their Lean semantics (used when the engine calls them).
-/

/-- One JS function value usable as a transform or validator: its source
text together with its semantics on embedded values. -/
structure JsFunc where
  ref : Nat
  src : String
  sem : JsValue → JsValue

/-- Raw configuration for the base typed controller. -/
structure TypedConfig where
  defaultVal : Option JsValue := none
  enumVals : Option (List JsPrim) := none
  transform : Option JsFunc := none
  validator : Option JsFunc := none
  typeVal : JsValue := .prim (.str "typed")

/-- Duplicate removal the Typed constructor applies to the enum option,
keeping the first occurrence of each value. -/
def dedupPrims : List JsPrim → List JsPrim :=
  go []
where
  go (seen : List JsPrim) : List JsPrim → List JsPrim
    | [] => []
    | p :: ps => if p ∈ seen then go seen ps else p :: go (p :: seen) ps

/-- The enum attribute stored on the compiled typed instance: the
deduplicated copy of the configured enum, or undefined when absent. -/
def typedInstEnum (c : TypedConfig) : Option (List JsPrim) :=
  c.enumVals.map dedupPrims

/-- Strict equality test used by Array.prototype.indexOf inside the enum
check: the value matches an enum entry when it is that primitive. -/
def enumContains (es : List JsPrim) (v : JsValue) : Bool :=
  match v with
  | .prim p => es.contains p
  | _ => false

/-- Typed.prototype.error: the enum check, then the custom validator; the
base controller performs no fundamental type check of its own. -/
def typedError (c : TypedConfig) (v : JsValue) (pfx : String) : Option ErrObj :=
  match typedInstEnum c with
  | some es =>
    if enumContains es v then typedValidatorCheck c v pfx
    else
      some (errish
        (pfx ++ valueErrorMessage v
          (". Expected one of: [" ++ String.intercalate ", " (es.map joinElemToString) ++ "]"))
        typedEnumCode)
  | none => typedValidatorCheck c v pfx
where
  typedValidatorCheck (c : TypedConfig) (v : JsValue) (pfx : String) : Option ErrObj :=
    match c.validator with
    | some f =>
      let valid := f.sem v
      match valid with
      | .prim (.str s) => some (errish (pfx ++ valueErrorMessage v s) typedValidateCode)
      | _ =>
        if jsTruthy valid then none
        else some (errish (pfx ++ valueErrorMessage v "Did not pass validation.") typedValidateCode)
    | none => none

/-- Typed.prototype.normalize: substitute the default when the value is
undefined, then apply the transform when one is configured. -/
def typedNormalize (c : TypedConfig) (v : JsValue) : Except RtErr JsValue :=
  let v := if c.defaultVal.isSome ∧ v = jsUndefined then c.defaultVal.getD jsUndefined else v
  match c.transform with
  | some f => .ok (f.sem v)
  | none => .ok v

/-- Attribute values of a compiled typed instance in the fixed definition
order of its defineProperties call: default, enum, hasDefault, transform,
type, validator. The hash digests their serializations in this order. -/
def typedAttrValues (c : TypedConfig) : List JsValue :=
  [ c.defaultVal.getD jsUndefined
  , (typedInstEnum c).elim jsUndefined (fun es => .arr 0 es)
  , jsBool c.defaultVal.isSome
  , (c.transform.map (fun f => JsValue.prim (.fn f.ref f.src))).getD jsUndefined
  , c.typeVal
  , (c.validator.map (fun f => JsValue.prim (.fn f.ref f.src))).getD jsUndefined ]

/-- Content hash of a compiled typed-chain instance (src/unnamed/part_000
lines 90-104): serialize each own attribute, join, digest. -/
def typedHash (c : TypedConfig) : String :=
  sha256hex (String.join ((typedAttrValues c).map serializeAttr))

/-!
## TypedString controller (src/unnamed/part_002)

Only the pieces the claims exercise are embedded: the fundamental type check
and the length bounds. An absent bound is stored as NaN by the constructor
(Math.round of undefined), and every comparison against NaN is false, so an
absent bound never rejects; this is modelled with Option. The pattern option
carries its semantics as a string predicate.
-/

/-- Raw configuration for the string controller, extending the typed one. -/
structure StringConfig extends TypedConfig where
  minLength : Option Nat := none
  maxLength : Option Nat := none
  pattern : Option (String × (String → Bool)) := none

/-- TypedString.prototype.error: type check first, then length bounds, then
the pattern. -/
def stringError (c : StringConfig) (v : JsValue) (pfx : String) : Option ErrObj :=
  match v with
  | .prim (.str s) =>
    if lenLtMin c s.length then
      some (errish (pfx ++ "Invalid string length. Must contain at least " ++
        toString (c.minLength.getD 0) ++ " characters. Contains " ++ toString s.length) stringMinCode)
    else if lenGtMax c s.length then
      some (errish (pfx ++ "Invalid string length. Must contain at most " ++
        toString (c.maxLength.getD 0) ++ " items. Contains " ++ toString s.length) stringMaxCode)
    else
      match c.pattern with
      | some (psrc, test) =>
        if test s then none
        else some (errish (pfx ++ "Invalid string. Does not match required pattern " ++
          psrc ++ " with value: " ++ s) stringPatternCode)
      | none => none
  | _ => some (errish (pfx ++ valueErrorMessage v "Expected a string.") utilTypeCode)
where
  lenLtMin (c : StringConfig) (len : Nat) : Bool :=
    match c.minLength with
    | some m => len < m
    | none => false
  lenGtMax (c : StringConfig) (len : Nat) : Bool :=
    match c.maxLength with
    | some m => len > m
    | none => false

/-!
## The compiled schema produced by factory.define (src/unnamed/part_000)

define collects, root-first over the inheritance chain, every prototype
error function into errorFunctions and every prototype normalize function
into normalizeFunctions; the generated Schema runs the first list until a
non-null error appears and folds the second list left to right.
-/

/-- One compiled single-schema instance: the data Schema.prototype.error,
hash, normalize and validate consult. -/
structure CompiledSchema where
  hasDefault : Bool
  defaultVal : JsValue
  errorFns : List (JsValue → String → Option ErrObj)
  normFns : List (JsValue → Except RtErr JsValue)
  hashStr : String

/-- Run the aggregated error pipeline, returning the first non-null error. -/
def runErrorFns (fns : List (JsValue → String → Option ErrObj)) (v : JsValue)
    (pfx : String) : Option ErrObj :=
  match fns with
  | [] => none
  | f :: fs =>
    match f v pfx with
    | some e => some e
    | none => runErrorFns fs v pfx

/-- Schema.prototype.error (src/unnamed/part_000 lines 110-118). -/
def schemaError (s : CompiledSchema) (v : JsValue) (pfx : String) : Option ErrObj :=
  runErrorFns s.errorFns v pfx

/-- Run the aggregated normalize pipeline left to right, each step feeding
the next; a step may raise a runtime failure. -/
def runNormFns (fns : List (JsValue → Except RtErr JsValue)) (v : JsValue) :
    Except RtErr JsValue :=
  match fns with
  | [] => .ok v
  | f :: fs =>
    match f v with
    | .error e => .error e
    | .ok v2 => runNormFns fs v2

/-- Schema.prototype.normalize (src/unnamed/part_000 lines 124-132):
default substitution, then validate (which throws the reported error when it
is non-null), then the ordered normalize pipeline. -/
def schemaNormalize (s : CompiledSchema) (v : JsValue) : Except RtErr JsValue :=
  let v := if v = jsUndefined ∧ s.hasDefault then s.defaultVal else v
  match schemaError s v "" with
  | some e => .error (.thrown e)
  | none => runNormFns s.normFns v

/-- The compiled schema for the base typed controller alone (registered as
define with no parents): one error function and one normalize function. -/
def mkTypedSchema (c : TypedConfig) : CompiledSchema :=
  { hasDefault := c.defaultVal.isSome
  , defaultVal := c.defaultVal.getD jsUndefined
  , errorFns := [typedError c]
  , normFns := [typedNormalize c]
  , hashStr := typedHash c }

/-- Serialization of an absent-able numeric bound attribute of the string
and array controllers: the constructor stores Math.round of the raw option,
so an absent bound is NaN, and the join renders NaN as the string NaN. -/
def boundAttrString : Option Nat → String
  | some n => toString n
  | none => "NaN"

/-- Serialization of the pattern attribute: a RegExp value is object-typed
and JSON.stringify renders it as the empty object (it has no enumerable own
properties), while an absent pattern is undefined and joins as the empty
string. -/
def patternAttrString : Option (String × (String → Bool)) → String
  | some _ => "\x7b\x7d"
  | none => ""

/-- Content hash of a compiled string-chain instance: the typed attributes
in their definition order followed by the string controllers own maxLength,
minLength and pattern attributes in the order its defineProperties call
declares them. -/
def stringHash (c : StringConfig) : String :=
  sha256hex (String.join ((typedAttrValues c.toTypedConfig).map serializeAttr
    ++ [boundAttrString c.maxLength, boundAttrString c.minLength,
        patternAttrString c.pattern]))

/-- The compiled schema for the string controller, registered with
inherits := [typed]: the inherited typed error function comes before the
string one, and only typed contributes a normalize step. -/
def mkStringSchema (c : StringConfig) : CompiledSchema :=
  { hasDefault := c.toTypedConfig.defaultVal.isSome
  , defaultVal := c.toTypedConfig.defaultVal.getD jsUndefined
  , errorFns := [typedError c.toTypedConfig, stringError c]
  , normFns := [typedNormalize c.toTypedConfig]
  , hashStr := stringHash c }

/-!
## Multi-variant resolver (src/bin/schema.js first document)

Schema(configuration) with an array configuration compiles each member into
a single schema, drops members whose hash() was already seen, and wraps the
surviving ordered list. A member is abstracted here by its observable
capabilities: its error function, its normalize function and its hash value.
-/

/-- One member schema of a multi-variant wrapper. -/
structure MemberSchema where
  errFn : JsValue → String → Option ErrObj
  normFn : JsValue → Except RtErr JsValue
  hashStr : String

/-- Deduplication step of Schema (src/bin/schema.js lines 56-63): keep a
member only when its hash value has not been seen before. -/
def dedupByHash : List MemberSchema → List MemberSchema :=
  go []
where
  go (seen : List String) : List MemberSchema → List MemberSchema
    | [] => []
    | s :: ss => if s.hashStr ∈ seen then go seen ss else s :: go (s.hashStr :: seen) ss

/-- Source text of Schema.prototype.hash (src/unnamed/part_000 lines
120-122). Every single-schema instance exposes this same prototype method,
so converting the method itself to a string always yields this constant. -/
def hashMethodSrc : String :=
  "function() \x7b return instances.has(this) ? instances.get(this).hash : empty \x7d"

/-- The string Array.prototype.join produces from the member hash METHODS in
src/bin/schema.js line 67: the code writes schemas.map(schema => schema.hash)
without calling the method, so each element is the hash function object and
join renders its source text. -/
def multiHashInput (schemas : List MemberSchema) : String :=
  String.join (schemas.map (fun _ => hashMethodSrc))

/-- Hash of a multi-variant wrapper (src/bin/schema.js lines 66-68). -/
def multiHash (schemas : List MemberSchema) : String :=
  sha256hex (multiHashInput schemas)

/-- getPassingSchema (src/bin/schema.js lines 143-158): try the members in
order; stop at the first member reporting no error, otherwise collect every
error in order. -/
def getPassingSchema (schemas : List MemberSchema) (v : JsValue) :
    MemberSchema ⊕ List ErrObj :=
  match schemas with
  | [] => .inr []
  | s :: rest =>
    match s.errFn v "" with
    | none => .inl s
    | some e =>
      match getPassingSchema rest v with
      | .inl s2 => .inl s2
      | .inr es => .inr (e :: es)

/-- getMultiError (src/bin/schema.js lines 160-166): one aggregate error
whose message lists every member failure in order and whose errors property
retains the member sub-errors. -/
def getMultiError (errors : List ErrObj) (pfx : String) : ErrObj :=
  .mk (pfx ++ "All possible schemas have errors:\n  " ++
      String.intercalate "\n  " (errors.map ErrObj.message))
    utilMultiCode errors none none

/-- result.error of a multi-variant wrapper (src/bin/schema.js lines
72-75). -/
def multiError (schemas : List MemberSchema) (v : JsValue) (pfx : String) :
    Option ErrObj :=
  match getPassingSchema schemas v with
  | .inl _ => none
  | .inr es => some (getMultiError es pfx)

/-- result.normalize of a multi-variant wrapper (src/bin/schema.js lines
81-87): re-run the ordered search and normalize with the first passing
member, or throw the aggregate error. -/
def multiNormalize (schemas : List MemberSchema) (v : JsValue) :
    Except RtErr JsValue :=
  match getPassingSchema schemas v with
  | .inl s => s.normFn v
  | .inr es => .error (.thrown (getMultiError es ""))

/-- View of a typed-chain single schema as a multi-variant member. -/
def typedMember (c : TypedConfig) : MemberSchema :=
  { errFn := fun v pfx => schemaError (mkTypedSchema c) v pfx
  , normFn := fun v => schemaNormalize (mkTypedSchema c) v
  , hashStr := typedHash c }

/-!
## Controller registry (src/unnamed/part_000)

The factory keeps a store mapping alias keys to a shared descriptor record
and a dependencies map keyed by the descriptor record itself, listing the
descriptor records that inherit from it. Descriptor records are modelled
with an explicit identity token (id) standing for the JS object reference
used as the Map key; aliases are modelled as strings, one representative of
the arbitrary alias keys the registry accepts.
-/

/-- The data record factory.define stores under every alias. -/
structure CtrlData where
  id : Nat
  aliases : List String
  inherits : List String
  deriving DecidableEq, Repr

/-- Registry state: the alias store and the dependencies map. -/
structure Registry where
  store : List (String × CtrlData)
  deps : List (Nat × List Nat)
  deriving DecidableEq, Repr

/-- Map lookup in the alias store. -/
def Registry.lookupAlias (r : Registry) (aliasKey : String) : Option CtrlData :=
  (r.store.find? (fun kv => kv.1 == aliasKey)).map Prod.snd

def Registry.hasAlias (r : Registry) (aliasKey : String) : Bool :=
  (r.lookupAlias aliasKey).isSome

/-- Dependents recorded for the descriptor record with the given identity;
an absent entry reads as the empty list. -/
def Registry.depsOf (r : Registry) (id : Nat) : List Nat :=
  ((r.deps.find? (fun kv => kv.1 == id)).map Prod.snd).getD []

/-- Map.set on an association list keyed by strings: replace in place when
the key exists (a JS Map key keeps its insertion position), append
otherwise. -/
def setAssoc : List (String × CtrlData) → String → CtrlData → List (String × CtrlData)
  | [], k, v => [(k, v)]
  | kv :: rest, k, v => if kv.1 = k then (k, v) :: rest else kv :: setAssoc rest k v

/-- Map.delete on the alias store; keys are unique in a Map, so removing
every matching entry coincides with removing the entry. -/
def delAssoc : List (String × CtrlData) → String → List (String × CtrlData)
  | [], _ => []
  | kv :: rest, k => if kv.1 = k then delAssoc rest k else kv :: delAssoc rest k

/-- Replace the dependents list recorded under a descriptor identity. -/
def setDeps : List (Nat × List Nat) → Nat → List Nat → List (Nat × List Nat)
  | [], id, items => [(id, items)]
  | kv :: rest, id, items =>
    if kv.1 = id then (id, items) :: rest else kv :: setDeps rest id items

/-- Map.delete on the dependencies map. -/
def delDeps : List (Nat × List Nat) → Nat → List (Nat × List Nat)
  | [], _ => []
  | kv :: rest, id => if kv.1 = id then delDeps rest id else kv :: delDeps rest id

/-- Remove the first occurrence of a dependent identity, as
items.splice(items.indexOf(data), 1) does. -/
def removeFirst (items : List Nat) (id : Nat) : List Nat :=
  match items with
  | [] => []
  | x :: xs => if x == id then xs else x :: removeFirst xs id

/-- factory.define (src/unnamed/part_000 lines 41-162), restricted to the
data the later operations consult: reject an alias already in use or an
unknown parent, then store the record under every alias and push it onto
each listed parents dependents list. -/
def factoryDefine (r : Registry) (id : Nat) (aliases : List String)
    (inherits : List String) : Except ConfigErr Registry :=
  if aliases.any r.hasAlias then
    .error ⟨"The specified alias is already in use."⟩
  else if inherits.any (fun i => !(r.hasAlias i)) then
    .error ⟨"Cannot inherit from undefined controller."⟩
  else
    let data : CtrlData := ⟨id, aliases, inherits⟩
    let store2 := aliases.foldl (fun st a => setAssoc st a data) r.store
    let deps2 := inherits.foldl
      (fun dp inh =>
        match r.lookupAlias inh with
        | some parent => setDeps dp parent.id (Registry.depsOf ⟨r.store, dp⟩ parent.id ++ [id])
        | none => dp)
      r.deps
    .ok ⟨store2, deps2⟩

/-- Error thrown by factory.delete when live descriptors still inherit from
the target; it carries the dependent descriptor identities. -/
structure DependencyErr where
  message : String
  dependencies : List Nat
  deriving DecidableEq, Repr

/-- Dependents lookup as a plain list function, shared by Registry.depsOf
and the delete loop below. -/
def depsGet (l : List (Nat × List Nat)) (id : Nat) : Option (List Nat) :=
  (l.find? (fun kv => kv.1 == id)).map Prod.snd

/-- One iteration of the data.inherits.forEach loop inside factory.delete
(src/unnamed/part_000 lines 188-196): look the parent up in the store after
the alias removal, remove the first occurrence of the deleted record from
its dependents, and drop the parents entry when the list becomes empty. -/
def deleteDepStep (store2 : List (String × CtrlData)) (did : Nat)
    (dp : List (Nat × List Nat)) (inh : String) : List (Nat × List Nat) :=
  match (store2.find? (fun kv => kv.1 == inh)).map Prod.snd with
  | some parent =>
    let pitems := (depsGet dp parent.id).getD []
    let pitems2 := removeFirst pitems did
    if pitems2 = [] then delDeps dp parent.id else setDeps dp parent.id pitems2
  | none => dp

/-- factory.delete (src/unnamed/part_000 lines 170-198): a no-op when the
alias is unknown; an error carrying the dependents when any remain;
otherwise remove the record from every one of its aliases and remove it
from each parents dependents list, dropping a parents entry when it becomes
empty. -/
def factoryDelete (r : Registry) (aliasKey : String) :
    Except DependencyErr Registry :=
  match r.lookupAlias aliasKey with
  | none => .ok r
  | some data =>
    let items := r.depsOf data.id
    if items ≠ [] then
      .error ⟨"Cannot delete controller definition due to dependencies on this definition.", items⟩
    else
      let store2 := data.aliases.foldl delAssoc r.store
      let deps2 := data.inherits.foldl (deleteDepStep store2 data.id) r.deps
      .ok ⟨store2, deps2⟩

/-!
## TypedObject controller (src/bin/object.js third document, lines 402-677)

Two aspects are embedded: the build-time property handling with the
mergeSchemas / validateSchemaConfiguration pair (claims about the
required-plus-default invariant) and TypedObject.prototype.error (claims
about totality). Only the configuration fields those claims consult are
carried: the raw required and default entries of a property configuration.
The one-of dispatch that Schema.controllers.is performs is modelled by the
two alternatives of PropCfg.
-/

/-- The slice of one plain property configuration that the build-time
required/default validation consults: the raw required entry and the raw
default entry, each present exactly when the configuration object has that
own property. -/
structure PlainCfg where
  required : Option JsValue := none
  defaultVal : Option JsValue := none
  deriving DecidableEq, Repr

/-- A property (or generic schema) configuration position: a plain
configuration or a one-of configuration with its member list. -/
inductive PropCfg where
  | plain (c : PlainCfg)
  | oneOf (members : List PlainCfg)
  deriving DecidableEq, Repr

/-- mergeSchemas (src/bin/object.js lines 650-651): Object.assign over a
fresh object, the specific configuration shadowing the general one. -/
def mergeSchemas (general specific : PlainCfg) : PlainCfg :=
  { required := specific.required.orElse (fun _ => general.required)
  , defaultVal := specific.defaultVal.orElse (fun _ => general.defaultVal) }

/-- The compiled property schema as seen by validateSchemaConfiguration
after the build loop re-attached required: the top-level required and
hasDefault attributes, and for a one-of property the per-member pairs of
(re-attached required, hasDefault). -/
inductive BuiltProp where
  | single (required : JsValue) (hasDefault : Bool)
  | multi (required : JsValue) (hasDefault : Bool) (members : List (JsValue × Bool))
  deriving DecidableEq, Repr

def BuiltProp.topRequired : BuiltProp → JsValue
  | .single r _ => r
  | .multi r _ _ => r

def BuiltProp.topHasDefault : BuiltProp → Bool
  | .single _ h => h
  | .multi _ h _ => h

/-- validateSchemaConfiguration (src/bin/object.js lines 670-677): reject a
schema that is required and carries a default value. -/
def validateSchemaConfiguration (key : String) (schema : BuiltProp) :
    Except ConfigErr Unit :=
  if jsTruthy schema.topRequired ∧ schema.topHasDefault then
    .error ⟨"Invalid configuration for property: " ++ key ++
      ". Cannot make required and provide a default value."⟩
  else .ok ()

/-- The per-property build step of the third TypedObject constructor
(src/bin/object.js lines 497-546): merge the generic schema into the
property configuration (four cases over one-of-ness), compile, re-attach
required (onto the single schema, or onto each one-of member), then run
validateSchemaConfiguration on the compiled property schema. -/
def buildObjectProperty (generic : Option PropCfg) (key : String)
    (options : PropCfg) : Except ConfigErr BuiltProp :=
  let merged : PropCfg :=
    match generic, options with
    | some (.plain g), .plain o => .plain (mergeSchemas g o)
    | some (.plain g), .oneOf ms => .oneOf (ms.map (fun item => mergeSchemas g item))
    | some (.oneOf gs), .plain o => .oneOf (gs.map (fun item => mergeSchemas item o))
    | some (.oneOf gs), .oneOf ms =>
      .oneOf (ms.flatMap (fun mi => gs.map (fun gj => mergeSchemas gj mi)))
    | none, o => o
  let built : BuiltProp :=
    match merged with
    | .plain c => .single (c.required.getD jsUndefined) c.defaultVal.isSome
    | .oneOf ms =>
      .multi jsUndefined false
        (ms.map (fun m => (m.required.getD jsUndefined, m.defaultVal.isSome)))
  match validateSchemaConfiguration key built with
  | .error e => .error e
  | .ok _ => .ok built

/-- One compiled property schema of an object schema, as consulted by
TypedObject.prototype.error: the truthiness of the re-attached required
flag, the default data and the inherited error function. -/
structure PropModel where
  required : Bool
  hasDefault : Bool
  defaultVal : JsValue
  errFn : JsValue → Option ErrObj

/-- One compiled object schema (third document). -/
structure ObjSchemaModel where
  allowNull : Bool := true
  clean : Bool := false
  propSchemas : List (String × PropModel)
  genericErr : Option (JsValue → Option ErrObj) := none

/-- The JS member access value.hasOwnProperty(key): a TypeError on null or
undefined receivers, a field test on objects. -/
def jsHasOwnProperty (v : JsValue) (k : String) : Except RtErr Bool :=
  match v with
  | .obj _ fs => .ok (fs.any (fun f => f.1 == k))
  | .arr _ _ => .ok false
  | .prim .null => .error (.typeError "Cannot read properties of null (reading hasOwnProperty)")
  | .prim .undef => .error (.typeError "Cannot read properties of undefined (reading hasOwnProperty)")
  | .prim _ => .ok false

/-- Object.keys of a value, in insertion order. -/
def objKeys : JsValue → List String
  | .obj _ fs => fs.map Prod.fst
  | _ => []

/-- Property read value[key] on an object value. -/
def objGetField (v : JsValue) (k : String) : JsValue :=
  match v with
  | .obj _ fs => ((fs.find? (fun f => f.1 == k)).map (fun f => JsValue.prim f.2)).getD jsUndefined
  | _ => jsUndefined

/-- Overwrite the property location field of an error object, as the
aggregating loops do with err.property = key. -/
def setErrProperty (e : ErrObj) (k : String) : ErrObj :=
  match e with
  | .mk m c es _ i => .mk m c es (some k) i

/-- Modelled from the spec: the toString rendering of an errish error data
object used inside aggregate messages (util.js is not under src). -/
def errToString (e : ErrObj) : String :=
  "Error: " ++ e.message

/-- The required-property loop of TypedObject.prototype.error
(src/bin/object.js lines 564-573): for every required property the input
must own the key; the ownership test dereferences the input value. -/
def requiredLoop (props : List (String × PropModel)) (value : JsValue) :
    Except RtErr (List ErrObj) :=
  match props with
  | [] => .ok []
  | (k, s) :: rest =>
    if s.required then
      match jsHasOwnProperty value k with
      | .error e => .error e
      | .ok true => requiredLoop rest value
      | .ok false =>
        match requiredLoop rest value with
        | .error e => .error e
        | .ok es =>
          .ok (ErrObj.mk ("Missing required value for property: " ++ k)
            objectRequiredCode [] (some k) none :: es)
    else requiredLoop rest value

/-- The per-key value loop of TypedObject.prototype.error (src/bin/object.js
lines 576-591): each key of the input is checked against its property
schema, or the generic schema when no property schema matches. -/
def propValueLoop (o : ObjSchemaModel) (value : JsValue) : List ErrObj :=
  (objKeys value).flatMap (fun k =>
    match (o.propSchemas.find? (fun p => p.1 == k)).map (fun p => p.2.errFn) with
    | some f =>
      match f (objGetField value k) with
      | some e => [setErrProperty e k]
      | none => []
    | none =>
      match o.genericErr with
      | some f =>
        match f (objGetField value k) with
        | some e => [setErrProperty e k]
        | none => []
      | none => [])

/-- TypedObject.prototype.error (src/bin/object.js lines 551-602). The
result is Except because the required loop can raise a genuine TypeError. -/
def objectError (o : ObjSchemaModel) (value : JsValue) (pfx : String) :
    Except RtErr (Option ErrObj) :=
  if typeofJs value ≠ "object" then
    .ok (some (errish (pfx ++ valueErrorMessage value "Expected an object.") utilTypeCode))
  else if ¬ jsTruthy value ∧ ¬ o.allowNull then
    .ok (some (errish (pfx ++ "Object cannot be null.") objectNullCode))
  else
    match requiredLoop o.propSchemas value with
    | .error e => .error e
    | .ok errs1 =>
      let errs2 := if jsTruthy value then propValueLoop o value else []
      let errors := errs1 ++ errs2
      if errors.isEmpty then .ok none
      else
        let count := if errors.length = 1 then "One error with property"
          else "Multiple errors with properties"
        .ok (some (ErrObj.mk
          (pfx ++ count ++ " in the object:\n  " ++
            String.intercalate "\n  " (errors.map errToString))
          objectPropertiesCode errors none none))

/-!
## TypedArray controller (src/bin/array.js)

The element schema is abstracted by its error and normalize capabilities on
element values; element values are primitives in the embedded universe.
-/

/-- The compiled element schema stored on a TypedArray instance when the
configuration supplies the schema option. -/
structure ElemSchema where
  errFn : JsPrim → String → Option ErrObj
  normPrim : JsPrim → Except RtErr JsPrim

/-- Raw configuration for the array controller, extending the typed one. An
absent bound is stored as NaN by the constructor and every comparison with
NaN is false, which Option captures. -/
structure ArrayConfig extends TypedConfig where
  minItems : Option Nat := none
  maxItems : Option Nat := none
  uniqueItems : Bool := false
  elemSchema : Option ElemSchema := none

/-- Duplicate detection of the uniqueItems check. -/
def hasDuplicate : List JsPrim → Bool :=
  go []
where
  go (seen : List JsPrim) : List JsPrim → Bool
    | [] => false
    | p :: ps => if p ∈ seen then true else go (p :: seen) ps

/-- The indexed element check of TypedArray.prototype.error (lines
131-148). -/
def arrayElemErrors (s : ElemSchema) (es : List JsPrim) : List ErrObj :=
  go 0 es
where
  go (i : Nat) : List JsPrim → List ErrObj
    | [] => []
    | p :: ps =>
      match s.errFn p ("At index " ++ toString i ++ ": ") with
      | some e =>
        (match e with
         | .mk m c errs pr _ => ErrObj.mk m c errs pr (some i)) :: go (i + 1) ps
      | none => go (i + 1) ps

/-- TypedArray.prototype.error (src/bin/array.js lines 97-151). -/
def arrayError (c : ArrayConfig) (v : JsValue) (pfx : String) : Option ErrObj :=
  match v with
  | .arr _ es =>
    if itemsLtMin c es.length then
      some (errish (pfx ++ "Invalid array length. Must contain at least " ++
        toString (c.minItems.getD 0) ++ " items. Contains " ++ toString es.length) arrayMinCode)
    else if itemsGtMax c es.length then
      some (errish (pfx ++ "Invalid array length. Must contain at most " ++
        toString (c.maxItems.getD 0) ++ " items. Contains " ++ toString es.length) arrayMaxCode)
    else if c.uniqueItems ∧ hasDuplicate es then
      some (errish (pfx ++ "Invalid array. All items must be unique.") arrayUniqueCode)
    else
      match c.elemSchema with
      | some s =>
        let errors := arrayElemErrors s es
        if errors.isEmpty then none
        else
          let count := if errors.length = 1 then "One error" else "Multiple errors"
          some (ErrObj.mk (pfx ++ count ++ " with items in the array:\n  " ++
              String.intercalate "\n  " (errors.map errToString))
            arrayItemsCode errors none none)
      | none => none
  | _ => some (errish (pfx ++ valueErrorMessage v "Expected an array.") utilTypeCode)
where
  itemsLtMin (c : ArrayConfig) (len : Nat) : Bool :=
    match c.minItems with
    | some m => len < m
    | none => false
  itemsGtMax (c : ArrayConfig) (len : Nat) : Bool :=
    match c.maxItems with
    | some m => len > m
    | none => false

/-- TypedArray.prototype.normalize (src/bin/array.js lines 153-156):
value.map(v => schema.normalize(v)). When the configuration omitted the
schema option the stored schema is undefined and the first callback
invocation dereferences it, so any non-empty array raises a TypeError while
the empty array maps to the empty array without invoking the callback. -/
def arrayNormalizeStep (c : ArrayConfig) (v : JsValue) : Except RtErr JsValue :=
  match v with
  | .arr r es =>
    match c.elemSchema with
    | some s =>
      match es.mapM s.normPrim with
      | .error e => .error e
      | .ok es2 => .ok (.arr r es2)
    | none =>
      match es with
      | [] => .ok (.arr r [])
      | _ => .error (.typeError "Cannot read properties of undefined (reading normalize)")
  | _ => .error (.typeError "value.map is not a function")

/-- The compiled schema for the array controller, registered with
inherits := [typed]: typed contributes the first error function and the
first normalize step, the array controller the second of each. The hash
field digests the typed attributes; no theorem consults the hash of an
array-chain schema. -/
def mkArraySchema (c : ArrayConfig) : CompiledSchema :=
  { hasDefault := c.toTypedConfig.defaultVal.isSome
  , defaultVal := c.toTypedConfig.defaultVal.getD jsUndefined
  , errorFns := [typedError c.toTypedConfig, arrayError c]
  , normFns := [typedNormalize c.toTypedConfig, arrayNormalizeStep c]
  , hashStr := typedHash c.toTypedConfig }

/-!
## Deep equality and identity erasure

Supporting notions for the hash-stability claims: deep equality in the
conventional JS sense (structural, ignoring object identity and ignoring the
insertion order of object keys) and erasure of identity tokens (which keeps
insertion order). Primitives compare strictly; function values compare by
identity.
-/

/-- Field lookup in an object field list. -/
def lookupField (fs : List (String × JsPrim)) (k : String) : Option JsPrim :=
  (fs.find? (fun f => f.1 == k)).map Prod.snd

/-- Deep equality of embedded JS values: primitives strictly, arrays in
order, objects by key set with order ignored. -/
def jsDeepEqual (a b : JsValue) : Bool :=
  match a, b with
  | .prim p, .prim q => p == q
  | .arr _ xs, .arr _ ys => xs == ys
  | .obj _ fs, .obj _ gs =>
    fs.all (fun kv => lookupField gs kv.1 == some kv.2) &&
      gs.all (fun kv => (lookupField fs kv.1).isSome)
  | _, _ => false

/-- Identity comparison of optional function-valued options. -/
def funcIdEq : Option JsFunc → Option JsFunc → Bool
  | none, none => true
  | some f, some g => f.ref == g.ref && f.src == g.src
  | _, _ => false

/-- Pointwise deep equality of optional values, presence respected. -/
def optDeepEq : Option JsValue → Option JsValue → Bool
  | none, none => true
  | some a, some b => jsDeepEqual a b
  | _, _ => false

/-- Deep equality of two typed configurations: every recognized option deeply
equal, function options identical. -/
def typedCfgDeepEqual (c1 c2 : TypedConfig) : Bool :=
  optDeepEq c1.defaultVal c2.defaultVal &&
    (match c1.enumVals, c2.enumVals with
     | none, none => true
     | some a, some b => a == b
     | _, _ => false) &&
    funcIdEq c1.transform c2.transform &&
    funcIdEq c1.validator c2.validator &&
    jsDeepEqual c1.typeVal c2.typeVal

/-- Erase the identity token of a primitive function value. -/
def erasePrimRef : JsPrim → JsPrim
  | .fn _ src => .fn 0 src
  | p => p

/-- Erase every object identity token, keeping structure and key order. -/
def eraseRefs : JsValue → JsValue
  | .prim p => .prim (erasePrimRef p)
  | .arr _ es => .arr 0 (es.map erasePrimRef)
  | .obj _ fs => .obj 0 (fs.map (fun kv => (kv.1, erasePrimRef kv.2)))

/-- The identity-free content of a typed configuration: everything the hash
serialization can observe. -/
def typedCfgShape (c : TypedConfig) :
    Option JsValue × Option (List JsPrim) × Option String × Option String × JsValue :=
  (c.defaultVal.map eraseRefs, c.enumVals, c.transform.map JsFunc.src,
    c.validator.map JsFunc.src, eraseRefs c.typeVal)

theorem jsonOfArrayElem_erasePrimRef (p : JsPrim) :
    jsonOfArrayElem (erasePrimRef p) = jsonOfArrayElem p := by
  cases p <;> rfl

theorem jsonOfField_erasePrimRef (k : String) (p : JsPrim) :
    jsonOfField (k, erasePrimRef p) = jsonOfField (k, p) := by
  cases p <;> rfl

theorem flatMap_jsonOfField_erase (fs : List (String × JsPrim)) :
    (fs.map (fun kv => (kv.1, erasePrimRef kv.2))).flatMap jsonOfField =
      fs.flatMap jsonOfField := by
  induction fs with
  | nil => rfl
  | cons kv rest ih =>
    simp only [List.map_cons, List.flatMap_cons, ih]
    rw [jsonOfField_erasePrimRef]

theorem serializeAttr_eraseRefs (v : JsValue) :
    serializeAttr (eraseRefs v) = serializeAttr v := by
  cases v with
  | prim p => cases p <;> rfl
  | arr r es =>
    simp only [eraseRefs, serializeAttr, jsonStringify, List.map_map]
    have h : List.map (jsonOfArrayElem ∘ erasePrimRef) es = List.map jsonOfArrayElem es :=
      List.map_congr_left (fun p _ => by
        simp only [Function.comp_apply, jsonOfArrayElem_erasePrimRef])
    rw [h]
  | obj r fs =>
    simp only [eraseRefs, serializeAttr, jsonStringify]
    rw [flatMap_jsonOfField_erase]

/-!
## Supporting lemmas
-/

/-- The default-substitution step shared by Schema.prototype.normalize and
Typed.prototype.normalize. -/
def substDefault (c : TypedConfig) (v : JsValue) : JsValue :=
  if v = jsUndefined ∧ c.defaultVal.isSome then c.defaultVal.getD jsUndefined else v

/-- The transform application at the end of Typed.prototype.normalize. -/
def applyTransform (c : TypedConfig) (v : JsValue) : JsValue :=
  match c.transform with
  | some f => f.sem v
  | none => v

theorem typedNormalize_substDefault (c : TypedConfig) (v : JsValue) :
    typedNormalize c (substDefault c v) = .ok (applyTransform c (substDefault c v)) := by
  have hsub : (if c.defaultVal.isSome ∧ substDefault c v = jsUndefined then
      c.defaultVal.getD jsUndefined else substDefault c v) = substDefault c v := by
    by_cases hp : c.defaultVal.isSome = true ∧ substDefault c v = jsUndefined
    · rw [if_pos hp]
      by_cases hv : v = jsUndefined ∧ c.defaultVal.isSome = true
      · rw [substDefault, if_pos hv]
      · exfalso
        apply hv
        refine ⟨?_, hp.1⟩
        have h2 := hp.2
        rw [substDefault, if_neg hv] at h2
        exact h2
    · rw [if_neg hp]
  cases htr : c.transform with
  | some f => simp only [typedNormalize, applyTransform, htr, hsub]
  | none => simp only [typedNormalize, applyTransform, htr, hsub]

theorem getPassingSchema_all_fail (v : JsValue) (ms : List MemberSchema)
    (h : ∀ s ∈ ms, (s.errFn v "").isSome = true) :
    getPassingSchema ms v = .inr (ms.map (fun s => (s.errFn v "").getD (errish "" ""))) := by
  induction ms with
  | nil => rfl
  | cons s rest ih =>
    have hs := h s (by simp)
    cases he : s.errFn v "" with
    | none => rw [he] at hs; simp at hs
    | some e =>
      have ih2 := ih (fun s2 hs2 => h s2 (List.mem_cons_of_mem _ hs2))
      simp only [getPassingSchema, he, ih2, List.map_cons, Option.getD_some]

theorem multiError_eq_none_iff (ms : List MemberSchema) (v : JsValue) (pfx : String) :
    multiError ms v pfx = none ↔ ∃ s ∈ ms, s.errFn v "" = none := by
  induction ms with
  | nil => simp [multiError, getPassingSchema]
  | cons s rest ih =>
    cases he : s.errFn v "" with
    | none =>
      simp only [multiError, getPassingSchema, he]
      exact ⟨fun _ => ⟨s, by simp, he⟩, fun _ => trivial⟩
    | some e =>
      simp only [multiError, getPassingSchema, he]
      cases hr : getPassingSchema rest v with
      | inl s2 =>
        constructor
        · intro _
          have hrest : multiError rest v pfx = none := by
            simp [multiError, hr]
          rcases ih.mp hrest with ⟨s3, hmem, hnone⟩
          exact ⟨s3, List.mem_cons_of_mem _ hmem, hnone⟩
        · intro _; rfl
      | inr es =>
        constructor
        · intro hcontra; exact absurd hcontra (by simp)
        · rintro ⟨s3, hmem, hnone⟩
          rcases List.mem_cons.mp hmem with h1 | h2
          · rw [h1] at hnone; rw [hnone] at he; cases he
          · have hrest : multiError rest v pfx = none := ih.mpr ⟨s3, h2, hnone⟩
            simp [multiError, hr] at hrest

/-- Alias-store lookup as a plain list function, for reasoning about folds. -/
def storeLookup (st : List (String × CtrlData)) (k : String) : Option CtrlData :=
  (st.find? (fun kv => kv.1 == k)).map Prod.snd

theorem lookupAlias_eq_storeLookup (r : Registry) (k : String) :
    r.lookupAlias k = storeLookup r.store k := rfl

theorem storeLookup_delAssoc (st : List (String × CtrlData)) (k a : String) :
    storeLookup (delAssoc st k) a = if a = k then none else storeLookup st a := by
  induction st with
  | nil => by_cases h : a = k <;> simp [storeLookup, delAssoc, h]
  | cons kv rest ih =>
    by_cases hk : kv.1 = k
    · rw [show delAssoc (kv :: rest) k = delAssoc rest k by simp [delAssoc, hk]]
      rw [ih]
      by_cases ha : a = k
      · simp [ha]
      · have hne : (kv.1 == a) = false := by
          simp only [beq_eq_false_iff_ne, ne_eq]
          intro hc; exact ha (hc ▸ hk)
        simp [ha, storeLookup, List.find?_cons, hne]
    · rw [show delAssoc (kv :: rest) k = kv :: delAssoc rest k by simp [delAssoc, hk]]
      by_cases ha : kv.1 = a
      · have hb : (kv.1 == a) = true := by simp [ha]
        have hak : a ≠ k := fun hc => hk (ha.trans hc)
        simp [storeLookup, List.find?_cons, hb, hak]
      · have hb : (kv.1 == a) = false := by simp [ha]
        simp only [storeLookup, List.find?_cons, hb] at *
        simpa [storeLookup] using ih

theorem storeLookup_foldl_delAssoc (ks : List String) (st : List (String × CtrlData))
    (a : String) :
    storeLookup (ks.foldl delAssoc st) a = if a ∈ ks then none else storeLookup st a := by
  induction ks generalizing st with
  | nil => simp
  | cons k rest ih =>
    rw [List.foldl_cons, ih (delAssoc st k)]
    by_cases ha : a ∈ rest
    · simp [ha]
    · rw [if_neg ha, storeLookup_delAssoc]
      by_cases h2 : a = k
      · simp [h2]
      · simp [h2, ha]

theorem depsOf_eq_depsGet (r : Registry) (id : Nat) :
    r.depsOf id = (depsGet r.deps id).getD [] := rfl

theorem depsGet_setDeps (l : List (Nat × List Nat)) (id : Nat) (items : List Nat)
    (a : Nat) :
    depsGet (setDeps l id items) a = if a = id then some items else depsGet l a := by
  induction l with
  | nil =>
    by_cases h : a = id
    · simp [depsGet, setDeps, h]
    · simp only [setDeps, depsGet, List.find?_cons, List.find?_nil, if_neg h]
      have hb : (id == a) = false := by
        simp only [beq_eq_false_iff_ne, ne_eq]; exact fun hc => h hc.symm
      simp [hb]
  | cons kv rest ih =>
    by_cases hk : kv.1 = id
    · rw [show setDeps (kv :: rest) id items = (id, items) :: rest by simp [setDeps, hk]]
      by_cases ha : a = id
      · simp [ha, depsGet, List.find?_cons]
      · have hb : (id == a) = false := by
          simp only [beq_eq_false_iff_ne, ne_eq]; exact fun hc => ha hc.symm
        have hb2 : (kv.1 == a) = false := by
          simp only [beq_eq_false_iff_ne, ne_eq]
          exact fun hc => ha (hc.symm.trans hk)
        simp [ha, depsGet, List.find?_cons, hb, hb2, hk]
    · rw [show setDeps (kv :: rest) id items = kv :: setDeps rest id items by
        simp [setDeps, hk]]
      by_cases ha : kv.1 = a
      · have hb : (kv.1 == a) = true := by simp [ha]
        have hai : a ≠ id := fun hc => hk (ha.trans hc)
        simp [depsGet, List.find?_cons, hb, hai]
      · have hb : (kv.1 == a) = false := by simp [ha]
        simp only [depsGet, List.find?_cons, hb] at *
        simpa [depsGet] using ih

theorem depsGet_delDeps (l : List (Nat × List Nat)) (id : Nat) (a : Nat) :
    depsGet (delDeps l id) a = if a = id then none else depsGet l a := by
  induction l with
  | nil => by_cases h : a = id <;> simp [depsGet, delDeps, h]
  | cons kv rest ih =>
    by_cases hk : kv.1 = id
    · rw [show delDeps (kv :: rest) id = delDeps rest id by simp [delDeps, hk]]
      rw [ih]
      by_cases ha : a = id
      · simp [ha]
      · have hb : (kv.1 == a) = false := by
          simp only [beq_eq_false_iff_ne, ne_eq]
          exact fun hc => ha (hc.symm.trans hk)
        simp [ha, depsGet, List.find?_cons, hb]
    · rw [show delDeps (kv :: rest) id = kv :: delDeps rest id by simp [delDeps, hk]]
      by_cases ha : kv.1 = a
      · have hb : (kv.1 == a) = true := by simp [ha]
        have hai : a ≠ id := fun hc => hk (ha.trans hc)
        simp [depsGet, List.find?_cons, hb, hai]
      · have hb : (kv.1 == a) = false := by simp [ha]
        simp only [depsGet, List.find?_cons, hb] at *
        simpa [depsGet] using ih

/-- Iterated removal of the first occurrence, one round per resolved parent
occurrence in the delete loop. -/
def removeTimes (l : List Nat) (id : Nat) : Nat → List Nat
  | 0 => l
  | Nat.succ n => removeTimes (removeFirst l id) id n

/-- The number of entries of the inherits list that resolve, in the
post-removal store, to a parent with the given identity: how many times the
delete loop touches that parents dependents list. -/
def resolvedParentCount (store2 : List (String × CtrlData))
    (inherits : List String) (q : Nat) : Nat :=
  (inherits.filter
    (fun inh => ((store2.find? (fun kv => kv.1 == inh)).map Prod.snd).map CtrlData.id
      == some q)).length

theorem count_removeFirst (l : List Nat) (id : Nat) :
    List.count id (removeFirst l id) = List.count id l - 1 := by
  induction l with
  | nil => simp [removeFirst]
  | cons x xs ih =>
    by_cases h : x = id
    · rw [show removeFirst (x :: xs) id = xs by simp [removeFirst, h]]
      simp [List.count_cons, h]
    · rw [show removeFirst (x :: xs) id = x :: removeFirst xs id by simp [removeFirst, h]]
      have hb : (x == id) = false := by simp [h]
      simp only [List.count_cons, hb, if_false, Bool.false_eq_true, ih]
      cases hc : List.count id xs with
      | zero => simp
      | succ n => simp [Nat.succ_sub_one]

theorem count_removeTimes (l : List Nat) (id : Nat) (n : Nat) :
    List.count id (removeTimes l id n) = List.count id l - n := by
  induction n generalizing l with
  | zero => simp [removeTimes]
  | succ n ih =>
    rw [show removeTimes l id (Nat.succ n) = removeTimes (removeFirst l id) id n from rfl]
    rw [ih, count_removeFirst, Nat.sub_sub, Nat.add_comm]

theorem not_mem_removeTimes (l : List Nat) (id : Nat) (n : Nat)
    (h : List.count id l ≤ n) : id ∉ removeTimes l id n := by
  have hc : List.count id (removeTimes l id n) = 0 := by
    rw [count_removeTimes]
    omega
  exact List.count_eq_zero.mp hc

theorem deleteDepStep_depsGetD (store2 : List (String × CtrlData)) (did : Nat)
    (dp : List (Nat × List Nat)) (inh : String) (q : Nat) :
    (depsGet (deleteDepStep store2 did dp inh) q).getD [] =
      match (store2.find? (fun kv => kv.1 == inh)).map Prod.snd with
      | some parent =>
        if q = parent.id then removeFirst ((depsGet dp q).getD []) did
        else (depsGet dp q).getD []
      | none => (depsGet dp q).getD [] := by
  cases hp : (store2.find? (fun kv => kv.1 == inh)).map Prod.snd with
  | none => simp [deleteDepStep, hp]
  | some parent =>
    simp only [deleteDepStep, hp]
    by_cases hz : removeFirst ((depsGet dp parent.id).getD []) did = []
    · rw [if_pos hz]
      by_cases hq : q = parent.id
      · subst hq
        rw [depsGet_delDeps]
        simp [hz]
      · rw [depsGet_delDeps]
        simp [hq]
    · rw [if_neg hz]
      by_cases hq : q = parent.id
      · subst hq
        rw [depsGet_setDeps]
        simp
      · rw [depsGet_setDeps]
        simp [hq]

theorem foldl_deleteDepStep_depsGetD (store2 : List (String × CtrlData)) (did : Nat)
    (inherits : List String) :
    ∀ (dp : List (Nat × List Nat)) (q : Nat),
    (depsGet (inherits.foldl (deleteDepStep store2 did) dp) q).getD [] =
      removeTimes ((depsGet dp q).getD []) did (resolvedParentCount store2 inherits q) := by
  induction inherits with
  | nil => intro dp q; simp [resolvedParentCount, removeTimes]
  | cons inh rest ih =>
    intro dp q
    rw [List.foldl_cons, ih]
    rw [show (depsGet (deleteDepStep store2 did dp inh) q).getD [] =
        match (store2.find? (fun kv => kv.1 == inh)).map Prod.snd with
        | some parent =>
          if q = parent.id then removeFirst ((depsGet dp q).getD []) did
          else (depsGet dp q).getD []
        | none => (depsGet dp q).getD [] from deleteDepStep_depsGetD store2 did dp inh q]
    cases hp : (store2.find? (fun kv => kv.1 == inh)).map Prod.snd with
    | none =>
      have hcond : (((store2.find? (fun kv => kv.1 == inh)).map Prod.snd).map CtrlData.id
          == some q) = false := by
        rw [hp]; rfl
      rw [show resolvedParentCount store2 (inh :: rest) q =
          resolvedParentCount store2 rest q by
        simp only [resolvedParentCount, List.filter_cons, hcond]
        simp]
    | some parent =>
      dsimp only
      by_cases hq : q = parent.id
      · have hcond : (((store2.find? (fun kv => kv.1 == inh)).map Prod.snd).map CtrlData.id
            == some q) = true := by
          rw [hp]; simp [hq]
        rw [show resolvedParentCount store2 (inh :: rest) q =
            Nat.succ (resolvedParentCount store2 rest q) by
          simp only [resolvedParentCount, List.filter_cons, hcond]
          simp]
        rw [if_pos hq]
        rfl
      · have hcond : (((store2.find? (fun kv => kv.1 == inh)).map Prod.snd).map CtrlData.id
            == some q) = false := by
          rw [hp]
          simp only [Option.map_some', beq_eq_false_iff_ne, ne_eq, Option.some.injEq]
          exact fun hc => hq hc.symm
        rw [show resolvedParentCount store2 (inh :: rest) q =
            resolvedParentCount store2 rest q by
          simp only [resolvedParentCount, List.filter_cons, hcond]
          simp]
        rw [if_neg hq]

/-!
## Claim theorems
-/

/-- Member configuration with enum ["a"], used by the hash claims. -/
def c1ConfigA : TypedConfig := { enumVals := some [JsPrim.str "a"] }

/-- Member configuration with enum ["b"], used by the hash claims. -/
def c1ConfigB : TypedConfig := { enumVals := some [JsPrim.str "b"] }

/-- C1: the multi-variant hash is claimed to be derived from the member hash
values in order, so that members differing in a validated attribute give
different hash(). The code (src/bin/schema.js line 67) instead joins the
member hash METHODS, whose shared prototype source text is one constant, so
the digest depends only on the member count: the two single-member
multi-variant schemas built from enum ["a"] and enum ["b"] have different
member hashes yet equal multi-variant hash. -/
theorem multi_hash_ignores_member_hashes :
    (typedMember c1ConfigA).hashStr ≠ (typedMember c1ConfigB).hashStr
    ∧ multiHash (dedupByHash [typedMember c1ConfigA]) =
        multiHash (dedupByHash [typedMember c1ConfigB]) := by
  exact ⟨by decide, rfl⟩

/-- String-schema configuration declaring an enum, used by C2. -/
def c2Config : StringConfig :=
  { enumVals := some [JsPrim.str "a"], typeVal := jsStr "string" }

/-- C2 counterexample: a number given to a string schema that declares an
enum is reported with the enum error of the base typed controller, not with
the fundamental type-mismatch error, because the base checks run first and
the type check lives in the specialized string controller. -/
theorem wrong_type_with_enum_reports_enum_error :
    (schemaError (mkStringSchema c2Config) (jsNum 123) "").map ErrObj.code =
      some typedEnumCode
    ∧ typedEnumCode ≠ utilTypeCode := by
  exact ⟨rfl, by decide⟩

/-- C2 amended: error returns the first non-null result of the ordered
pipeline with the inherited base (typed) error check running before the
string controller check; consequently a value missing the enum is reported
with the enum error whatever its fundamental type. -/
theorem schema_error_pipeline_base_first :
    ∀ (c : StringConfig) (v : JsValue) (pfx : String),
    (schemaError (mkStringSchema c) v pfx =
      match typedError c.toTypedConfig v pfx with
      | some e => some e
      | none => stringError c v pfx)
    ∧ (∀ es, typedInstEnum c.toTypedConfig = some es → enumContains es v = false →
        schemaError (mkStringSchema c) v pfx =
          some (errish (pfx ++ valueErrorMessage v
              (". Expected one of: [" ++
                String.intercalate ", " (es.map joinElemToString) ++ "]"))
            typedEnumCode)) := by
  intro c v pfx
  constructor
  · cases h1 : typedError c.toTypedConfig v pfx with
    | some e => simp [schemaError, mkStringSchema, runErrorFns, h1]
    | none =>
      cases h2 : stringError c v pfx with
      | some e => simp [schemaError, mkStringSchema, runErrorFns, h1, h2]
      | none => simp [schemaError, mkStringSchema, runErrorFns, h1, h2]
  · intro es hes hmiss
    have h1 : typedError c.toTypedConfig v pfx =
        some (errish (pfx ++ valueErrorMessage v
            (". Expected one of: [" ++
              String.intercalate ", " (es.map joinElemToString) ++ "]"))
          typedEnumCode) := by
      simp [typedError, hes, hmiss]
    simp [schemaError, mkStringSchema, runErrorFns, h1]

/-- C2 amended witness: the concrete schema with enum ["a"] against the
number 123. -/
theorem schema_error_pipeline_base_first_witness :
    typedInstEnum c2Config.toTypedConfig = some [JsPrim.str "a"]
    ∧ enumContains [JsPrim.str "a"] (jsNum 123) = false
    ∧ schemaError (mkStringSchema c2Config) (jsNum 123) "" =
        some (errish ("" ++ valueErrorMessage (jsNum 123)
            (". Expected one of: [" ++
              String.intercalate ", " ([JsPrim.str "a"].map joinElemToString) ++ "]"))
          typedEnumCode) :=
  ⟨rfl, rfl,
    (schema_error_pipeline_base_first c2Config (jsNum 123) "").2 [JsPrim.str "a"] rfl rfl⟩

/-- Property schema for a required property whose own error check always
passes, used by C3. -/
def c3Prop : PropModel :=
  { required := true, hasDefault := false, defaultVal := jsUndefined
  , errFn := fun _ => none }

/-- Object schema declaring one required property, with the default
allowNull of the third TypedObject document (true). -/
def c3Schema : ObjSchemaModel := { propSchemas := [("name", c3Prop)] }

/-- C3: error is claimed total; on the object schema with a required
property the empty object is indeed reported as data carrying the
missing-required sub-error, but error(null) raises a TypeError from
null.hasOwnProperty in the required loop instead of returning data. -/
theorem object_error_throws_on_null_with_required :
    objectError c3Schema jsNull "" =
      .error (.typeError "Cannot read properties of null (reading hasOwnProperty)")
    ∧ (∃ e, objectError c3Schema (.obj 0 []) "" = .ok (some e)
        ∧ e.code = objectPropertiesCode
        ∧ e.errors.map ErrObj.code = [objectRequiredCode]
        ∧ e.errors.map ErrObj.property = [some "name"]) := by
  exact ⟨rfl, ⟨_, rfl, rfl, rfl, rfl⟩⟩

/-- C4: a multi-variant error is null exactly when some member accepts the
value; when every member rejects it, the aggregate retains every member
sub-error in order and its message lists every member failure message in
order under the standard header. -/
theorem multi_error_first_match_aggregate :
    ∀ (ms : List MemberSchema) (v : JsValue) (pfx : String),
    (multiError ms v pfx = none ↔ ∃ s ∈ ms, s.errFn v "" = none)
    ∧ ((∀ s ∈ ms, (s.errFn v "").isSome = true) →
        ∃ e, multiError ms v pfx = some e
          ∧ e.errors = ms.map (fun s => (s.errFn v "").getD (errish "" ""))
          ∧ e.message = pfx ++ "All possible schemas have errors:\n  " ++
              String.intercalate "\n  " (e.errors.map ErrObj.message)
          ∧ e.code = utilMultiCode) := by
  intro ms v pfx
  refine ⟨multiError_eq_none_iff ms v pfx, ?_⟩
  intro hall
  have hg := getPassingSchema_all_fail v ms hall
  have hmain : multiError ms v pfx =
      some (getMultiError (ms.map (fun s => (s.errFn v "").getD (errish "" ""))) pfx) := by
    simp [multiError, hg]
  exact ⟨_, hmain, rfl, rfl, rfl⟩

/-- Multi-variant member compiled from enum ["a"], used by the C4 witness. -/
def c4MemberA : MemberSchema := typedMember c1ConfigA

/-- Multi-variant member compiled from enum ["b"], used by the C4 witness. -/
def c4MemberB : MemberSchema := typedMember c1ConfigB

/-- C4 witness: both members reject the string "c" and the aggregate holds
both sub-errors. -/
theorem multi_error_first_match_aggregate_witness :
    (∀ s ∈ [c4MemberA, c4MemberB], ((s.errFn (jsStr "c") "").isSome = true))
    ∧ ∃ e, multiError [c4MemberA, c4MemberB] (jsStr "c") "" = some e
        ∧ e.errors = [c4MemberA, c4MemberB].map
            (fun s => (s.errFn (jsStr "c") "").getD (errish "" ""))
        ∧ e.message = "" ++ "All possible schemas have errors:\n  " ++
            String.intercalate "\n  " (e.errors.map ErrObj.message)
        ∧ e.code = utilMultiCode :=
  ⟨by decide,
    (multi_error_first_match_aggregate [c4MemberA, c4MemberB] (jsStr "c") "").2 (by decide)⟩

/-- C5: when the first member accepts the value, multi-variant normalize
re-runs the ordered search and normalizes with that first member, never a
later one. -/
theorem multi_normalize_first_match :
    ∀ (A B : MemberSchema) (v : JsValue),
    A.errFn v "" = none → B.errFn v "" = none →
    multiNormalize [A, B] v = A.normFn v := by
  intro A B v hA _hB
  simp [multiNormalize, getPassingSchema, hA]

/-- First member of the C5 witness: accepts everything and rewrites the
value through its transform. -/
def c5MemberA : MemberSchema :=
  typedMember { transform := some ⟨0, "v => capitalA", fun _ => jsStr "A"⟩ }

/-- Second member of the C5 witness: accepts everything unchanged. -/
def c5MemberB : MemberSchema := typedMember {}

/-- C5 witness: both members accept "x"; the wrapper normalizes with the
first member, whose result differs from what the second would return. -/
theorem multi_normalize_first_match_witness :
    c5MemberA.errFn (jsStr "x") "" = none
    ∧ c5MemberB.errFn (jsStr "x") "" = none
    ∧ multiNormalize [c5MemberA, c5MemberB] (jsStr "x") = .ok (jsStr "A")
    ∧ c5MemberB.normFn (jsStr "x") = .ok (jsStr "x") := by
  refine ⟨rfl, rfl, ?_, rfl⟩
  have h := multi_normalize_first_match c5MemberA c5MemberB (jsStr "x") rfl rfl
  rw [h]
  rfl

/-- C6: single-schema normalize first substitutes the default when the value
is undefined, then validates the substituted value (throwing the reported
error object when it is non-null), and only then runs the normalize pipeline
on the substituted value, so the configured transform runs after validation
has passed. -/
theorem single_normalize_default_validate_transform_order :
    ∀ (c : TypedConfig) (v : JsValue),
    (∀ e, schemaError (mkTypedSchema c) (substDefault c v) "" = some e →
      schemaNormalize (mkTypedSchema c) v = .error (.thrown e))
    ∧ (schemaError (mkTypedSchema c) (substDefault c v) "" = none →
      schemaNormalize (mkTypedSchema c) v = .ok (applyTransform c (substDefault c v))) := by
  intro c v
  have hshape : schemaNormalize (mkTypedSchema c) v =
      match schemaError (mkTypedSchema c) (substDefault c v) "" with
      | some e => .error (.thrown e)
      | none => runNormFns (mkTypedSchema c).normFns (substDefault c v) := rfl
  constructor
  · intro e he
    rw [hshape, he]
  · intro hnone
    rw [hshape, hnone]
    show runNormFns [typedNormalize c] (substDefault c v) = _
    simp only [runNormFns, typedNormalize_substDefault]

/-- Typed configuration with a default of 100 and an incrementing transform,
used by the C6 witness. -/
def c6Config : TypedConfig :=
  { defaultVal := some (jsNum 100)
  , transform := some ⟨0, "v => v plus one",
      fun v => match v with
        | .prim (.num n) => .prim (.num (n + 1))
        | w => w⟩ }

/-- Typed configuration whose validator rejects everything, used by the C6
witness error path. -/
def c6BadConfig : TypedConfig :=
  { validator := some ⟨1, "v => falseValue", fun _ => jsBool false⟩ }

/-- C6 witness: normalizing undefined substitutes the default 100, passes
validation, and only then the transform produces 101; under the rejecting
validator the reported error object is thrown. -/
theorem single_normalize_order_witness :
    schemaError (mkTypedSchema c6Config) (substDefault c6Config jsUndefined) "" = none
    ∧ schemaNormalize (mkTypedSchema c6Config) jsUndefined = .ok (jsNum 101)
    ∧ schemaError (mkTypedSchema c6BadConfig) (substDefault c6BadConfig (jsNum 5)) "" =
        some (errish ("" ++ valueErrorMessage (jsNum 5) "Did not pass validation.")
          typedValidateCode)
    ∧ schemaNormalize (mkTypedSchema c6BadConfig) (jsNum 5) =
        .error (.thrown (errish ("" ++ valueErrorMessage (jsNum 5) "Did not pass validation.")
          typedValidateCode)) := by
  refine ⟨rfl, ?_, rfl, ?_⟩
  · exact (single_normalize_default_validate_transform_order c6Config jsUndefined).2 rfl
  · exact (single_normalize_default_validate_transform_order c6BadConfig (jsNum 5)).1 _ rfl

/-- Property configuration that is both required and has a default, used by
C7. -/
def c7SingleCfg : PlainCfg :=
  { required := some (jsBool true), defaultVal := some (jsNum 5) }

/-- Generic object schema carrying a default, used by C7. -/
def c7GenericCfg : PropCfg := .plain { defaultVal := some (jsNum 5) }

/-- One-of member carrying required, used by C7. -/
def c7MemberCfg : PlainCfg := { required := some (jsBool true) }

/-- C7: a single property configuration that is required and carries a
default fails at build time as claimed; but when the property is a one-of
configuration whose merged member is required and carries a default, the
validation only inspects the top-level one-of schema (which never receives
the required flag), so the build succeeds and the claim fails for merged
variants. -/
theorem required_default_check_skipped_for_oneof_members :
    buildObjectProperty none "x" (.plain c7SingleCfg) =
      .error ⟨"Invalid configuration for property: x. Cannot make required and provide a default value."⟩
    ∧ buildObjectProperty (some c7GenericCfg) "x" (.oneOf [c7MemberCfg]) =
        .ok (.multi jsUndefined false [(jsBool true, true)])
    ∧ mergeSchemas { defaultVal := some (jsNum 5) } c7MemberCfg =
        { required := some (jsBool true), defaultVal := some (jsNum 5) } := by
  exact ⟨rfl, rfl, rfl⟩

/-- C8: delete is a no-op on an unknown alias; with live dependents it fails
with the dependents list; otherwise it removes the descriptor from every one
of its aliases, leaves the other aliases untouched, and updates the
dependents of every parent: for every identity q the resulting dependents
list is the original with one occurrence of the deleted identity removed per
inherits entry resolving to q, and in particular each resolved parent whose
list held the deleted identity no more often than the loop visits it no
longer lists the deleted descriptor at all. -/
theorem registry_delete_contract :
    ∀ (r : Registry) (ak : String),
    (r.lookupAlias ak = none → factoryDelete r ak = .ok r)
    ∧ (∀ d, r.lookupAlias ak = some d →
        (r.depsOf d.id ≠ [] →
          factoryDelete r ak =
            .error ⟨"Cannot delete controller definition due to dependencies on this definition.",
              r.depsOf d.id⟩)
        ∧ (r.depsOf d.id = [] →
            ∃ r2, factoryDelete r ak = .ok r2
              ∧ (∀ a2 ∈ d.aliases, r2.lookupAlias a2 = none)
              ∧ (∀ a2, a2 ∉ d.aliases → r2.lookupAlias a2 = r.lookupAlias a2)
              ∧ (∀ q, r2.depsOf q =
                  removeTimes (r.depsOf q) d.id
                    (resolvedParentCount (d.aliases.foldl delAssoc r.store) d.inherits q))
              ∧ (∀ p pd, p ∈ d.inherits →
                  storeLookup (d.aliases.foldl delAssoc r.store) p = some pd →
                  List.count d.id (r.depsOf pd.id) ≤
                    resolvedParentCount (d.aliases.foldl delAssoc r.store) d.inherits pd.id →
                  d.id ∉ r2.depsOf pd.id))) := by
  intro r ak
  constructor
  · intro h
    simp [factoryDelete, h]
  · intro d hd
    constructor
    · intro hne
      simp only [factoryDelete, hd]
      rw [if_pos hne]
    · intro hemp
      simp only [factoryDelete, hd]
      rw [if_neg (by simp [hemp])]
      refine ⟨_, rfl, ?_, ?_, ?_, ?_⟩
      · intro a2 ha2
        rw [lookupAlias_eq_storeLookup]
        show storeLookup (d.aliases.foldl delAssoc r.store) a2 = none
        rw [storeLookup_foldl_delAssoc]
        simp [ha2]
      · intro a2 ha2
        rw [lookupAlias_eq_storeLookup, lookupAlias_eq_storeLookup]
        show storeLookup (d.aliases.foldl delAssoc r.store) a2 = storeLookup r.store a2
        rw [storeLookup_foldl_delAssoc]
        simp [ha2]
      · intro q
        show (depsGet (d.inherits.foldl
            (deleteDepStep (d.aliases.foldl delAssoc r.store) d.id) r.deps) q).getD [] = _
        rw [foldl_deleteDepStep_depsGetD]
        rfl
      · intro p pd _hpmem _hpd hcount
        have he : Registry.depsOf
            ⟨d.aliases.foldl delAssoc r.store,
              d.inherits.foldl
                (deleteDepStep (d.aliases.foldl delAssoc r.store) d.id) r.deps⟩ pd.id =
            removeTimes (r.depsOf pd.id) d.id
              (resolvedParentCount (d.aliases.foldl delAssoc r.store) d.inherits pd.id) := by
          show (depsGet (d.inherits.foldl
              (deleteDepStep (d.aliases.foldl delAssoc r.store) d.id) r.deps) pd.id).getD [] = _
          rw [foldl_deleteDepStep_depsGetD]
          rfl
        rw [he]
        exact not_mem_removeTimes _ _ _ hcount

/-- Descriptor record stored for the foo controller in the C8 scenario. -/
def fooData : CtrlData := ⟨1, ["foo"], []⟩

/-- Descriptor record stored for the bar controller, inheriting from foo. -/
def barData : CtrlData := ⟨2, ["bar"], ["foo"]⟩

/-- Registry holding foo with dependent bar. -/
def regFooBar : Registry := ⟨[("foo", fooData), ("bar", barData)], [(1, [2])]⟩

/-- Registry holding foo alone. -/
def regFoo : Registry := ⟨[("foo", fooData)], []⟩

/-- First parent descriptor of the multi-parent C8 scenario. -/
def paData : CtrlData := ⟨1, ["pa"], []⟩

/-- Second parent descriptor of the multi-parent C8 scenario. -/
def pbData : CtrlData := ⟨2, ["pb"], []⟩

/-- Child descriptor inheriting from both parents. -/
def childData : CtrlData := ⟨3, ["c"], ["pa", "pb"]⟩

/-- Registry holding both parents and the child, each parent listing the
child as its dependent. -/
def regMulti : Registry :=
  ⟨[("pa", paData), ("pb", pbData), ("c", childData)], [(1, [3]), (2, [3])]⟩

/-- C8 witness: the foo/bar scenario (both registries arise from define;
delete of foo fails with dependent 2 while bar exists, delete of bar
succeeds and releases the dependency, after which delete of foo succeeds)
together with a two-parent descriptor whose deletion removes it from the
dependents list of each of its parents. -/
theorem registry_delete_contract_witness :
    factoryDefine ⟨[], []⟩ 1 ["foo"] [] = .ok regFoo
    ∧ factoryDefine regFoo 2 ["bar"] ["foo"] = .ok regFooBar
    ∧ regFooBar.lookupAlias "foo" = some fooData
    ∧ regFooBar.depsOf fooData.id ≠ []
    ∧ factoryDelete regFooBar "foo" =
        .error ⟨"Cannot delete controller definition due to dependencies on this definition.", [2]⟩
    ∧ factoryDelete regFooBar "bar" = .ok regFoo
    ∧ (∃ r2, factoryDelete regFooBar "bar" = .ok r2
        ∧ (∀ a2 ∈ barData.aliases, r2.lookupAlias a2 = none))
    ∧ (∃ r3, factoryDelete regFoo "foo" = .ok r3
        ∧ (∀ a2 ∈ fooData.aliases, r3.lookupAlias a2 = none))
    ∧ (∃ r4, factoryDelete regMulti "c" = .ok r4
        ∧ r4.depsOf paData.id = []
        ∧ r4.depsOf pbData.id = []
        ∧ childData.id ∉ r4.depsOf paData.id
        ∧ childData.id ∉ r4.depsOf pbData.id) := by
  refine ⟨rfl, rfl, rfl, by decide, ?_, rfl, ?_, ?_, ?_⟩
  · exact ((registry_delete_contract regFooBar "foo").2 fooData rfl).1 (by decide)
  · obtain ⟨r2, h1, h2, _, _⟩ :=
      ((registry_delete_contract regFooBar "bar").2 barData rfl).2 rfl
    exact ⟨r2, h1, h2⟩
  · obtain ⟨r3, h1, h2, _, _⟩ :=
      ((registry_delete_contract regFoo "foo").2 fooData rfl).2 rfl
    exact ⟨r3, h1, h2⟩
  · obtain ⟨r4, h1, _, _, h4, h5⟩ :=
      ((registry_delete_contract regMulti "c").2 childData rfl).2 rfl
    refine ⟨r4, h1, ?_, ?_, ?_, ?_⟩
    · exact (h4 paData.id).trans rfl
    · exact (h4 pbData.id).trans rfl
    · exact h5 "pa" paData (by decide) rfl (by decide)
    · exact h5 "pb" pbData (by decide) rfl (by decide)

/-- Configuration whose default object lists key a before key b. -/
def c9Config1 : TypedConfig :=
  { defaultVal := some (.obj 1 [("a", .num 1), ("b", .num 2)]) }

/-- Configuration whose default object lists key b before key a: deeply
equal to the first but serialized differently. -/
def c9Config2 : TypedConfig :=
  { defaultVal := some (.obj 2 [("b", .num 2), ("a", .num 1)]) }

/-- C9 counterexample: the hash serializes object-valued attributes with
JSON.stringify, which follows key insertion order, so two deeply-equal
configurations whose object-valued default lists its keys in different
orders produce different hashes. -/
theorem deep_equal_configs_can_differ_in_hash :
    typedCfgDeepEqual c9Config1 c9Config2 = true
    ∧ typedHash c9Config1 ≠ typedHash c9Config2 := by
  exact ⟨rfl, by decide⟩

/-- C9 amended: the hash depends only on the identity-free shape of the
configuration — attribute content in property insertion order, function
attributes by source text, object identity erased — so configurations equal
up to object identity hash equally. -/
theorem hash_depends_only_on_config_shape :
    ∀ c1 c2 : TypedConfig, typedCfgShape c1 = typedCfgShape c2 →
    typedHash c1 = typedHash c2 := by
  intro c1 c2 h
  simp only [typedCfgShape, Prod.mk.injEq] at h
  obtain ⟨h1, h2, h3, h4, h5⟩ := h
  have e1 : serializeAttr (c1.defaultVal.getD jsUndefined) =
      serializeAttr (c2.defaultVal.getD jsUndefined) := by
    cases hc1 : c1.defaultVal with
    | none =>
      cases hc2 : c2.defaultVal with
      | none => rfl
      | some w => rw [hc1, hc2] at h1; simp at h1
    | some w =>
      cases hc2 : c2.defaultVal with
      | none => rw [hc1, hc2] at h1; simp at h1
      | some w2 =>
        rw [hc1, hc2] at h1
        simp only [Option.map_some', Option.some.injEq] at h1
        simp only [Option.getD_some]
        rw [← serializeAttr_eraseRefs w, ← serializeAttr_eraseRefs w2, h1]
  have e2 : typedInstEnum c1 = typedInstEnum c2 := by
    simp only [typedInstEnum, h2]
  have e3 : c1.defaultVal.isSome = c2.defaultVal.isSome := by
    have := congrArg Option.isSome h1
    simpa using this
  have e4 : serializeAttr ((c1.transform.map
        (fun f => JsValue.prim (.fn f.ref f.src))).getD jsUndefined) =
      serializeAttr ((c2.transform.map
        (fun f => JsValue.prim (.fn f.ref f.src))).getD jsUndefined) := by
    cases hc1 : c1.transform with
    | none =>
      cases hc2 : c2.transform with
      | none => rfl
      | some g => rw [hc1, hc2] at h3; simp at h3
    | some f =>
      cases hc2 : c2.transform with
      | none => rw [hc1, hc2] at h3; simp at h3
      | some g =>
        rw [hc1, hc2] at h3
        simp only [Option.map_some', Option.some.injEq] at h3
        simp [serializeAttr, h3]
  have e5 : serializeAttr c1.typeVal = serializeAttr c2.typeVal := by
    rw [← serializeAttr_eraseRefs c1.typeVal, ← serializeAttr_eraseRefs c2.typeVal, h5]
  have e6 : serializeAttr ((c1.validator.map
        (fun f => JsValue.prim (.fn f.ref f.src))).getD jsUndefined) =
      serializeAttr ((c2.validator.map
        (fun f => JsValue.prim (.fn f.ref f.src))).getD jsUndefined) := by
    cases hc1 : c1.validator with
    | none =>
      cases hc2 : c2.validator with
      | none => rfl
      | some g => rw [hc1, hc2] at h4; simp at h4
    | some f =>
      cases hc2 : c2.validator with
      | none => rw [hc1, hc2] at h4; simp at h4
      | some g =>
        rw [hc1, hc2] at h4
        simp only [Option.map_some', Option.some.injEq] at h4
        simp [serializeAttr, h4]
  show sha256hex (String.join ((typedAttrValues c1).map serializeAttr)) =
    sha256hex (String.join ((typedAttrValues c2).map serializeAttr))
  simp only [typedAttrValues, List.map_cons, List.map_nil]
  rw [e1, e2, e3, e4, e5, e6]

/-- Configuration like c9Config1 but under a distinct object identity. -/
def c9Config3 : TypedConfig :=
  { defaultVal := some (.obj 7 [("a", .num 1)]) }

/-- The same configuration content under another object identity. -/
def c9Config4 : TypedConfig :=
  { defaultVal := some (.obj 8 [("a", .num 1)]) }

/-- C9 amended witness: configurations differing only in object identity
hash equally. -/
theorem hash_depends_only_on_config_shape_witness :
    typedCfgShape c9Config3 = typedCfgShape c9Config4
    ∧ c9Config3.defaultVal ≠ c9Config4.defaultVal
    ∧ typedHash c9Config3 = typedHash c9Config4 :=
  ⟨rfl, by decide, hash_depends_only_on_config_shape c9Config3 c9Config4 rfl⟩

/-- Array configuration without an element schema whose transform replaces
every value with the empty array, used by the C10 counterexample. -/
def c10TransformConfig : ArrayConfig :=
  { transform := some ⟨0, "v => emptyArray", fun _ => JsValue.arr 0 []⟩
  , elemSchema := none }

/-- C10 counterexample: the claim quantifies over every array schema without
the element schema option, but the typed normalize step runs before the
per-element step, so a configured transform can replace the non-empty array
before the absent element schema would be dereferenced: with a transform
returning the empty array, the non-empty array [1] passes error and
normalizes successfully instead of throwing. -/
theorem array_normalize_with_transform_can_succeed :
    c10TransformConfig.elemSchema = none
    ∧ schemaError (mkArraySchema c10TransformConfig) (.arr 0 [.num 1]) "" = none
    ∧ ([JsPrim.num 1] ≠ ([] : List JsPrim))
    ∧ schemaNormalize (mkArraySchema c10TransformConfig) (.arr 0 [.num 1]) =
        .ok (.arr 0 []) := by
  exact ⟨rfl, rfl, by decide, rfl⟩

/-- C10 amended: for an array schema compiled without the element schema
option and without a transform, any non-empty array value that passes error
makes normalize raise a TypeError from the per-element step dereferencing
the absent element schema, while the empty array normalizes to itself. -/
theorem array_normalize_without_elem_schema :
    ∀ (c : ArrayConfig), c.elemSchema = none → c.toTypedConfig.transform = none →
    ∀ (r : Nat) (es : List JsPrim),
    (schemaError (mkArraySchema c) (.arr r es) "" = none → es ≠ [] →
      schemaNormalize (mkArraySchema c) (.arr r es) =
        .error (.typeError "Cannot read properties of undefined (reading normalize)"))
    ∧ (schemaError (mkArraySchema c) (.arr r es) "" = none → es = [] →
      schemaNormalize (mkArraySchema c) (.arr r es) = .ok (.arr r [])) := by
  intro c hse htr r es
  have hsubst : (if (JsValue.arr r es) = jsUndefined ∧ (mkArraySchema c).hasDefault
      then (mkArraySchema c).defaultVal else (.arr r es)) = JsValue.arr r es := by
    rw [if_neg]
    rintro ⟨h1, _⟩
    exact absurd h1 (by simp [jsUndefined])
  have hshape : schemaNormalize (mkArraySchema c) (.arr r es) =
      match schemaError (mkArraySchema c) (.arr r es) "" with
      | some e => .error (.thrown e)
      | none => runNormFns (mkArraySchema c).normFns (.arr r es) := by
    show (match schemaError (mkArraySchema c)
        (if (JsValue.arr r es) = jsUndefined ∧ (mkArraySchema c).hasDefault
          then (mkArraySchema c).defaultVal else (JsValue.arr r es)) "" with
      | some e => (Except.error (RtErr.thrown e) : Except RtErr JsValue)
      | none => runNormFns (mkArraySchema c).normFns
          (if (JsValue.arr r es) = jsUndefined ∧ (mkArraySchema c).hasDefault
            then (mkArraySchema c).defaultVal else (JsValue.arr r es))) = _
    rw [hsubst]
  have h1 : typedNormalize c.toTypedConfig (.arr r es) = .ok (.arr r es) := by
    simp [typedNormalize, htr, jsUndefined]
  constructor
  · intro hok hne
    rw [hshape, hok]
    show runNormFns [typedNormalize c.toTypedConfig, arrayNormalizeStep c] (.arr r es) = _
    simp only [runNormFns, h1]
    cases es with
    | nil => exact absurd rfl hne
    | cons p ps => simp [arrayNormalizeStep, hse]
  · intro hok hemp
    subst hemp
    rw [hshape, hok]
    show runNormFns [typedNormalize c.toTypedConfig, arrayNormalizeStep c] (.arr r []) = _
    simp only [runNormFns, h1]
    simp [arrayNormalizeStep, hse]

/-- Array configuration with no options, in particular no element schema. -/
def c10Config : ArrayConfig := {}

/-- C10 witness: the schema-less array schema accepts [1] but normalize
throws, while the empty array normalizes to itself. -/
theorem array_normalize_without_elem_schema_witness :
    c10Config.elemSchema = none
    ∧ c10Config.toTypedConfig.transform = none
    ∧ schemaError (mkArraySchema c10Config) (.arr 0 [.num 1]) "" = none
    ∧ schemaNormalize (mkArraySchema c10Config) (.arr 0 [.num 1]) =
        .error (.typeError "Cannot read properties of undefined (reading normalize)")
    ∧ schemaNormalize (mkArraySchema c10Config) (.arr 0 []) = .ok (.arr 0 []) := by
  refine ⟨rfl, rfl, rfl, ?_, ?_⟩
  · exact (array_normalize_without_elem_schema c10Config rfl rfl 0 [.num 1]).1 rfl (by simp)
  · exact (array_normalize_without_elem_schema c10Config rfl rfl 0 []).2 rfl rfl

end FullyTyped
